import Mathlib

/-!
Verification of the GOBOP Argo-float message parser
(src/SBS_BGC_Navis/parse_msg_files_pmel.py) against its natural-language
specification.  The Python source is shallowly embedded below: dictionaries
become association lists, floats become exact fractions (Frac, with toRat
giving the rational they denote) under an Option layer whose none
constructor plays the role of NaN, regular-expression matches become
hand-written matchers that implement the concrete patterns of the source,
and functions that raise become Option-valued functions.
-/

namespace GOBOP

/-- Character class of the Python regex class backslash-w (word characters),
restricted to ASCII as it occurs in msg files: letters, digits, underscore. -/
def isWordChar (c : Char) : Bool := c.isAlphanum || c = '_'

/-- Uppercase hexadecimal digit, the class 0-9A-F used by the high-res
line pattern of parse_high_res_pts. -/
def isHexUpper (c : Char) : Bool := c.isDigit || ('A' ≤ c && c ≤ 'F')

/-- Any hexadecimal digit accepted by the Python conversion int(s, 16). -/
def isHexAny (c : Char) : Bool := isHexUpper c || ('a' ≤ c && c ≤ 'f')

/-- Lowercase hexadecimal digit, the class 0-9a-f of the footer hex
pattern regex0 of parse_msg_footer. -/
def isHexLower (c : Char) : Bool := c.isDigit || ('a' ≤ c && c ≤ 'f')

/-- Numeric value of one hexadecimal digit. -/
def hexDigitVal (c : Char) : ℕ :=
  if c.isDigit then c.toNat - 48
  else if 'a' ≤ c then c.toNat - 87
  else c.toNat - 55

/-- Embedding of the Python conversion int(s, 16) on the strings reachable
in this program: fails (ValueError) on the empty string and on any string
holding a character that is not a hexadecimal digit. -/
def hexValue? (cs : List Char) : Option ℕ :=
  if cs.isEmpty then none
  else if cs.all isHexAny then
    some (cs.foldl (fun a c => 16 * a + hexDigitVal c) 0)
  else none

/-- Numeric value of a nonempty string of decimal digits. -/
def natOfDigits (cs : List Char) : ℕ :=
  cs.foldl (fun a c => 10 * a + (c.toNat - 48)) 0

/-- Whitespace as recognized by Python str.strip and str.split. -/
def isSpaceChar (c : Char) : Bool :=
  c = ' ' || c = '\t' || c = '\n' || c = '\r'

/-- Embedding of Python str.strip. -/
def stripChars (cs : List Char) : List Char :=
  ((cs.dropWhile isSpaceChar).reverse.dropWhile isSpaceChar).reverse

/-- Embedding of the Python substring test (pat in s). -/
def containsSub (pat : List Char) : List Char → Bool
  | [] => pat.isEmpty
  | c :: cs => pat.isPrefixOf (c :: cs) || containsSub pat cs

/-- Exact fraction used to embed the floating-point values of the source:
an integer numerator over a natural denominator, not kept in lowest terms
(every arithmetic step of the source maps to one explicit fraction, and the
rational a fraction denotes is given by Frac.toRat). -/
structure Frac where
  num : ℤ
  den : ℕ
deriving DecidableEq, Repr

/-- The rational number a fraction denotes. -/
def Frac.toRat (f : Frac) : ℚ := (f.num : ℚ) / (f.den : ℚ)

/-- Fraction holding a natural number. -/
def Frac.ofNat (n : ℕ) : Frac := ⟨n, 1⟩

/-- Value equality of two fractions (the comparison the source performs on
floats), by cross multiplication. -/
def Frac.eqv (a b : Frac) : Bool := a.num * (b.den : ℤ) == b.num * (a.den : ℤ)

/-- Value stored for a variable in the vars dictionary: the parsed values
are strings except in the footer hex branch and in copy_park_sample, where
numbers are stored; nan embeds np.nan entries. -/
inductive FVal where
  | str : String → FVal
  | num : Frac → FVal
  | nan : FVal
deriving DecidableEq, Repr

/-- Entry of the vars dictionary: a (value, unit) pair, exactly as the
Python source stores tuples (value, unit). -/
structure Field where
  value : FVal
  unit : String
deriving DecidableEq, Repr

/-- The vars dictionary of the source, embedded as an association list that
keeps insertion order, as Python dicts do. -/
abbrev FieldSet := List (String × Field)

/-- Dictionary update vars[k] = v: replaces the value in place when the key
exists, appends otherwise, as Python dict assignment does. -/
def fsSet (fs : FieldSet) (k : String) (v : Field) : FieldSet :=
  if fs.any (fun p => p.1 = k) then
    fs.map (fun p => if p.1 = k then (k, v) else p)
  else fs ++ [(k, v)]

/-- Dictionary lookup, none when the key is absent. -/
def fsGet? (fs : FieldSet) (k : String) : Option Field :=
  (fs.find? (fun p => p.1 = k)).map (fun p => p.2)

/-- The Python membership test (k in vars). -/
def fsMem (fs : FieldSet) (k : String) : Bool :=
  fs.any (fun p => p.1 = k)

/-- Generic dictionary update for association lists of any value type
(the coords dictionary and the array_vars accumulator): replaces in place
when the key exists, appends otherwise. -/
def alSet {α : Type} (l : List (String × α)) (k : String) (v : α) : List (String × α) :=
  if l.any (fun p => p.1 = k) then
    l.map (fun p => if p.1 = k then (k, v) else p)
  else l ++ [(k, v)]

/-- Generic dictionary lookup for association lists. -/
def alGet? {α : Type} (l : List (String × α)) (k : String) : Option α :=
  (l.find? (fun p => p.1 = k)).map (fun p => p.2)

/-- Generic membership test for association lists. -/
def alMem {α : Type} (l : List (String × α)) (k : String) : Bool :=
  l.any (fun p => p.1 = k)

/-- The coords dictionary of the source: time values are floats, where none
embeds np.nan (a failed GPS fix stores Fix_time as NaN, and the fallback of
assign_time stores time as NaN). -/
abbrev Coords := List (String × Option Frac)

/-- Embedding of assign_time.  The order of the branches is that of the
source: an already-present time entry is left alone (the source prints and
enters the debugger), otherwise Profile_time is used first, then Fix_time,
then the MessageTime variable converted by get_seconds_since_1970, and with
none of the three a warning is printed and time is set to NaN.  The date
conversion get_seconds_since_1970 goes through the datetime library and is
passed in as the parameter conv; the branch structure does not depend on
its values. -/
def assign_time (conv : FVal → Frac) (vars : FieldSet) (coords : Coords) : Coords :=
  if alMem coords "time" then coords
  else if alMem coords "Profile_time" then
    alSet coords "time" ((alGet? coords "Profile_time").getD none)
  else if alMem coords "Fix_time" then
    alSet coords "time" ((alGet? coords "Fix_time").getD none)
  else
    match fsGet? vars "MessageTime" with
    | some f => alSet coords "time" (some (conv f.value))
    | none => alSet coords "time" none

/-- Row of the processed-files ledger, with the columns written by
mark_file_processed and create_log_file. -/
structure LogEntry where
  filename : String
  floatid : ℕ
  wmoid : ℕ
  ftype : String
  profile : ℕ
  size : ℕ
  checksum : String
  processed : String
deriving DecidableEq, Repr

/-- Embedding of Python str.split with a one-character separator. -/
def splitOnChar (sep : Char) : List Char → List (List Char)
  | [] => [[]]
  | c :: cs =>
    let r := splitOnChar sep cs
    if c = sep then [] :: r
    else
      match r with
      | h :: t => (c :: h) :: t
      | [] => [[c]]

/-- Embedding of the Python conversion int(s) on the digit strings that
occur in filenames: a nonempty string of decimal digits; anything else
raises (none). -/
def digitsToNat? (cs : List Char) : Option ℕ :=
  if !cs.isEmpty && cs.all (fun c => c.isDigit) then some (natOfDigits cs) else none

/-- Embedding of parse_filename: take the basename (the part after the last
slash), split it on dots, and return the name together with the first part
as the float id, the second as the profile, and the third as the file type.
A missing part (IndexError) or a non-numeric id or profile (ValueError)
raises, embedded as none. -/
def parse_filename (filename : String) : Option (String × ℕ × ℕ × String) :=
  let fname := (splitOnChar '/' filename.data).getLastD filename.data
  match splitOnChar '.' fname with
  | p0 :: p1 :: p2 :: _ =>
    match digitsToNat? p0, digitsToNat? p1 with
    | some fid, some prof => some (String.mk fname, fid, prof, String.mk p2)
    | _, _ => none
  | _ => none

/-- Embedding of check_conv_need_file.  The ledger rows are given in file
order (the file is append-only, so file order is insertion order); the hash
of the probed file's current content (get_checksum) is passed in as hash.
Returns some false when the file is unchanged, some true when it must be
processed, none when parse_filename raises. -/
def check_conv_need_file (log : List LogEntry) (filename : String) (hash : String) :
    Option Bool :=
  let thisRow := log.filter (fun e => e.filename == filename)
  if thisRow.length ≠ 0 then
    if thisRow.getLast?.map (fun e => e.checksum) = some hash then some false
    else some true
  else
    match parse_filename filename with
    | none => none
    | some (_, fid, prof, ft) =>
      let secRow := log.filter
        (fun e => e.floatid == fid && e.profile == prof && e.ftype == ft)
      if secRow.length = 0 then some true
      else if secRow.getLast?.map (fun e => e.checksum) = some hash then some false
      else some true

/-- The module-level denylist skip_vars of the source: dial-command strings,
the raw debug bit-mask, and the telemetry credentials. -/
def skip_vars : List String := ["AltDialCmd", "AtDialCmd", "DebugBits", "Pwd", "User"]

/-- The module-level list non_time_vars of the source (with the firmware
list appended, as in the source). -/
def non_time_vars : List String :=
  ["Float_type", "Program", "Sbe41cpSerNo", "Firmware",
   "Apf9iFwRev", "Apf11FwRev", "NpfFwRev"]

/-- Character class of the unit group of the header pattern with units:
word characters, hyphen, slash. -/
def isUnitChar (c : Char) : Bool := isWordChar c || c = '-' || c = '/'

/-- Matcher for the tail of the header unit pattern, whitespace then a
bracketed nonempty run of unit characters, at the start of the string;
returns the unit group. -/
def matchUnitTail (cs : List Char) : Option (List Char) :=
  if (cs.takeWhile isSpaceChar).isEmpty then none
  else
    match cs.dropWhile isSpaceChar with
    | '[' :: t =>
      let u := t.takeWhile isUnitChar
      match t.dropWhile isUnitChar with
      | ']' :: _ => if u.isEmpty then none else some u
      | _ => none
    | _ => none

/-- Greedy split of the header value group: the value extends to the last
closing parenthesis whose tail matches the unit pattern, and must be
nonempty, reproducing the greedy dot-plus group of header regex1. -/
def splitParenUnit (r : List Char) : Option (List Char × List Char) :=
  (List.range r.length).reverse.findSome? (fun j =>
    if r.get? j = some ')' ∧ 1 ≤ j then
      (matchUnitTail (r.drop (j + 1))).map (fun u => (r.take j, u))
    else none)

/-- Greedy split of the unit-less header value group: the value extends to
the last closing parenthesis of the line and must be nonempty, reproducing
the greedy dot-plus group of header regex2. -/
def splitParenAny (r : List Char) : Option (List Char) :=
  (List.range r.length).reverse.findSome? (fun j =>
    if r.get? j = some ')' ∧ 1 ≤ j then some (r.take j) else none)

/-- Match of header regex1 (dollar, whitespace, name, parenthesized value,
whitespace, bracketed unit) anchored at the current position. -/
def matchHeaderUnitAt (cs : List Char) : Option (List Char × List Char × List Char) :=
  match cs with
  | '$' :: rest =>
    if (rest.takeWhile isSpaceChar).isEmpty then none
    else
      let r1 := rest.dropWhile isSpaceChar
      let name := r1.takeWhile isWordChar
      if name.isEmpty then none
      else
        match r1.dropWhile isWordChar with
        | '(' :: r2 => (splitParenUnit r2).map (fun p => (name, p.1, p.2))
        | _ => none
  | _ => none

/-- Search for header regex1 anywhere in the line (re.search semantics,
leftmost match). -/
def searchHeaderUnit : List Char → Option (List Char × List Char × List Char)
  | [] => none
  | c :: cs =>
    match matchHeaderUnitAt (c :: cs) with
    | some g => some g
    | none => searchHeaderUnit cs

/-- Match of header regex2 (dollar, whitespace, name, parenthesized value,
no unit group) anchored at the current position. -/
def matchHeaderNoUnitAt (cs : List Char) : Option (List Char × List Char) :=
  match cs with
  | '$' :: rest =>
    if (rest.takeWhile isSpaceChar).isEmpty then none
    else
      let r1 := rest.dropWhile isSpaceChar
      let name := r1.takeWhile isWordChar
      if name.isEmpty then none
      else
        match r1.dropWhile isWordChar with
        | '(' :: r2 => (splitParenAny r2).map (fun v => (name, v))
        | _ => none
  | _ => none

/-- Search for header regex2 anywhere in the line. -/
def searchHeaderNoUnit : List Char → Option (List Char × List Char)
  | [] => none
  | c :: cs =>
    match matchHeaderNoUnitAt (c :: cs) with
    | some g => some g
    | none => searchHeaderNoUnit cs

/-- Firmware branch shared by the header and footer parsers: Apf or Npf at
the line start fixes Float_type when it is still Unknown (a conflict only
prints), and a successful get_fwrev stores the firmware name and its
revision.  The helper get_fwrev (three regex alternatives over the firmware
line) is passed in as the parameter fwrev; a failure of all its patterns
returns none, after which the source stores nothing. -/
def handleFwRev (fwrev : List Char → Option (String × String)) (line : List Char)
    (vars : FieldSet) : FieldSet :=
  let unknown := (fsGet? vars "Float_type").map (fun f => f.value) = some (FVal.str "Unknown")
  let vars1 :=
    if ("Apf".data).isPrefixOf line then
      if unknown then fsSet vars "Float_type" ⟨FVal.str "APEX", ""⟩ else vars
    else if ("Npf".data).isPrefixOf line then
      if unknown then fsSet vars "Float_type" ⟨FVal.str "Navis", ""⟩ else vars
    else vars
  match fwrev line with
  | some (fw, rev) => fsSet (fsSet vars1 "Firmware" ⟨FVal.str fw, ""⟩) fw ⟨FVal.str rev, ""⟩
  | none => vars1

/-- Processing of one header line by the loop of parse_msg_header: a line
mentioning IsusInit or DuraInit sets Program to BGC; a match of the unit
pattern stores ParkPressure under the name ParkPressure0, drops names on
the skip_vars denylist, and stores every other name with its unit; with no
unit match, a match of the unit-less pattern stores the name with an empty
unit and no denylist check; otherwise a line mentioning FwRev goes to the
firmware branch, and anything else is only reported. -/
def parse_msg_header_line (fwrev : List Char → Option (String × String))
    (line : List Char) (vars : FieldSet) : FieldSet :=
  let vars1 :=
    if containsSub ("IsusInit".data) line || containsSub ("DuraInit".data) line then
      fsSet vars "Program" ⟨FVal.str "BGC", ""⟩
    else vars
  match searchHeaderUnit line with
  | some (name, val, unit) =>
    if String.mk name = "ParkPressure" then
      fsSet vars1 "ParkPressure0" ⟨FVal.str (String.mk val), String.mk unit⟩
    else if skip_vars.contains (String.mk name) then vars1
    else fsSet vars1 (String.mk name) ⟨FVal.str (String.mk val), String.mk unit⟩
  | none =>
    match searchHeaderNoUnit line with
    | some (name, val) => fsSet vars1 (String.mk name) ⟨FVal.str (String.mk val), ""⟩
    | none =>
      if containsSub ("FwRev".data) line then handleFwRev fwrev line vars1
      else vars1

/-- Character class of the footer number pattern: digits, dot, hyphen. -/
def isNumChar (c : Char) : Bool := c.isDigit || c = '.' || c = '-'

/-- Match of footer regex0 (name, equals sign, literal 0x, nonempty run of
lowercase hex digits) anchored at the current position. -/
def matchFooterHexAt (cs : List Char) : Option (List Char × List Char) :=
  let name := cs.takeWhile isWordChar
  if name.isEmpty then none
  else
    match cs.dropWhile isWordChar with
    | '=' :: '0' :: 'x' :: r =>
      let ds := r.takeWhile isHexLower
      if ds.isEmpty then none else some (name, ds)
    | _ => none

/-- Search for footer regex0 anywhere in the line. -/
def searchFooterHex : List Char → Option (List Char × List Char)
  | [] => none
  | c :: cs =>
    match matchFooterHexAt (c :: cs) with
    | some g => some g
    | none => searchFooterHex cs

/-- Match of footer regex1 (name, equals sign, nonempty run of digits,
dots and hyphens, then the rest of the line) anchored at the current
position. -/
def matchFooterNumAt (cs : List Char) : Option (List Char × List Char × List Char) :=
  let name := cs.takeWhile isWordChar
  if name.isEmpty then none
  else
    match cs.dropWhile isWordChar with
    | '=' :: r =>
      let num := r.takeWhile isNumChar
      if num.isEmpty then none else some (name, num, r.dropWhile isNumChar)
    | _ => none

/-- Search for footer regex1 anywhere in the line. -/
def searchFooterNum : List Char → Option (List Char × List Char × List Char)
  | [] => none
  | c :: cs =>
    match matchFooterNumAt (c :: cs) with
    | some g => some g
    | none => searchFooterNum cs

/-- Match of footer regex2 (name, bracketed decimal index, equals sign,
nonempty rest) anchored at the current position. -/
def matchFooterArrAt (cs : List Char) : Option (List Char × List Char × List Char) :=
  let name := cs.takeWhile isWordChar
  if name.isEmpty then none
  else
    match cs.dropWhile isWordChar with
    | '[' :: t =>
      let ds := t.takeWhile (fun c => c.isDigit)
      if ds.isEmpty then none
      else
        match t.dropWhile (fun c => c.isDigit) with
        | ']' :: '=' :: rhs => if rhs.isEmpty then none else some (name, ds, rhs)
        | _ => none
    | _ => none

/-- Search for footer regex2 anywhere in the line. -/
def searchFooterArr : List Char → Option (List Char × List Char × List Char)
  | [] => none
  | c :: cs =>
    match matchFooterArrAt (c :: cs) with
    | some g => some g
    | none => searchFooterArr cs

/-- Match of footer regex3 (name, equals sign, nonempty rest) anchored at
the current position. -/
def matchFooterAnyAt (cs : List Char) : Option (List Char × List Char) :=
  let name := cs.takeWhile isWordChar
  if name.isEmpty then none
  else
    match cs.dropWhile isWordChar with
    | '=' :: rhs => if rhs.isEmpty then none else some (name, rhs)
    | _ => none

/-- Search for footer regex3 anywhere in the line. -/
def searchFooterAny : List Char → Option (List Char × List Char)
  | [] => none
  | c :: cs =>
    match matchFooterAnyAt (c :: cs) with
    | some g => some g
    | none => searchFooterAny cs

/-- Embedding of the whitespace collapsing applied to TimeSt values,
a join with single spaces of str.split. -/
def collapseSpaces (cs : List Char) : String :=
  String.intercalate " " (((String.mk cs).split isSpaceChar).filter (fun s => !s.isEmpty))

/-- Loop state of parse_msg_footer: the vars dictionary and the array_vars
accumulator for array-indexed lines. -/
structure FooterState where
  vars : FieldSet
  array_vars : List (String × String)
deriving DecidableEq, Repr

/-- Processing of one footer line by the loop of parse_msg_footer, in the
order of the source: a line mentioning FwRev first goes through the
firmware branch (and still falls through to the pattern dispatch); a line
mentioning GPS fix hands control to parse_msg_gps_fix or skips ahead and
stores no key-value pair from this line; otherwise the first matching
pattern wins: hex assignment (value stored as a number, no unit, and no
denylist check), number-with-unit assignment (with the TimeSt whitespace
special case), the end-of-transmission marker (sets msgEOT), blank lines,
array-indexed assignment (accumulated in array_vars), catch-all assignment,
and unparseable lines, which are only reported. -/
def parse_msg_footer_line (fwrev : List Char → Option (String × String))
    (line : List Char) (st : FooterState) : FooterState :=
  let st1 :=
    if containsSub ("FwRev".data) line then
      { st with vars := handleFwRev fwrev line st.vars }
    else st
  if containsSub ("GPS fix".data) line then st1
  else
    match searchFooterHex line with
    | some (name, hx) =>
      { st1 with vars := (fsSet st1.vars (String.mk name)
          ⟨FVal.num (Frac.ofNat ((hexValue? hx).getD 0)), ""⟩) }
    | none =>
      match searchFooterNum line with
      | some (name, num, rest) =>
        if ("TimeSt".data).isPrefixOf name then
          { st1 with vars := (fsSet st1.vars (String.mk name)
              ⟨FVal.str (collapseSpaces (num ++ [' '] ++ rest)), ""⟩) }
        else
          { st1 with vars := (fsSet st1.vars (String.mk name)
              ⟨FVal.str (String.mk num), String.mk rest⟩) }
      | none =>
        if containsSub ("<EOT>".data) line then
          { st1 with vars := fsSet st1.vars "msgEOT" ⟨FVal.str "1", ""⟩ }
        else if (stripChars line).isEmpty then st1
        else
          match searchFooterArr line with
          | some (name, _, rhs) =>
            let key := String.mk name
            let old := (alGet? st1.array_vars key).getD ""
            { st1 with array_vars := alSet st1.array_vars key (old ++ String.mk rhs ++ ", ") }
          | none =>
            match searchFooterAny line with
            | some (name, rhs) =>
              { st1 with vars := (fsSet st1.vars (String.mk name)
                  ⟨FVal.str (String.mk rhs), ""⟩) }
            | none => st1

/-- Strip of trailing whitespace (str.rstrip). -/
def stripRight (cs : List Char) : List Char :=
  (cs.reverse.dropWhile isSpaceChar).reverse

/-- Final accumulation loop of parse_msg_footer: every array_vars entry is
stored into vars with its trailing separator stripped and unit count, and
the key ParkDescentP is renamed ParkDescentPistonP. -/
def footerFinalizeArrays (st : FooterState) : FieldSet :=
  st.array_vars.foldl (fun vs p =>
    let keyOut := if p.1 = "ParkDescentP" then "ParkDescentPistonP" else p.1
    fsSet vs keyOut ⟨FVal.str (String.mk (stripRight p.2.data)), "count"⟩) st.vars

/-- The discrete-samples dictionary built by parse_discrete_samples: one
column of raw strings per variable name, and the park-sample flags. -/
structure Discrete where
  cols : List (String × List String)
  park_sample : List Bool
deriving Repr

/-- Embedding of the Python conversion float(s) on the plain decimal
strings that occur in discrete-sample columns: optional sign, an integer
part, an optional fractional part; any other shape raises (none). -/
def parseFloat? (s : String) : Option Frac :=
  let cs := stripChars s.data
  let signNeg : Bool := cs.head? = some '-'
  let cs1 := if cs.head? = some '-' ∨ cs.head? = some '+' then cs.drop 1 else cs
  let ip := cs1.takeWhile (fun c => c.isDigit)
  let q : Option Frac :=
    match cs1.dropWhile (fun c => c.isDigit) with
    | [] => if ip.isEmpty then none else some (Frac.ofNat (natOfDigits ip))
    | '.' :: fp =>
      if fp.all (fun c => c.isDigit) && !(ip.isEmpty && fp.isEmpty) then
        some ⟨natOfDigits ip * 10 ^ fp.length + natOfDigits fp, 10 ^ fp.length⟩
      else none
    | _ => none
  q.map (fun v => if signNeg then ⟨-v.num, v.den⟩ else v)

/-- Embedding of copy_park_sample: with a discrete dictionary holding a
salinity column, the sample count is stored, and with exactly one
park-flagged sample its pressure, temperature and salinity are copied into
ParkPressure, ParkTemperature and ParkSalinity; with none, the three are
stored as NaN; with more than one, the source only reports.  A conversion
or indexing failure raises (none). -/
def copy_park_sample (vars : FieldSet) (discrete? : Option Discrete) : Option FieldSet :=
  match discrete? with
  | none => some vars
  | some d =>
    if !alMem d.cols "s" then some vars
    else
      let svals := (alGet? d.cols "s").getD []
      let vars1 := fsSet vars "NDiscreteSamples" ⟨FVal.num (Frac.ofNat svals.length), ""⟩
      let nps := (d.park_sample.filter (fun b => b)).length
      if nps = 1 then
        match d.park_sample.findIdx? (fun b => b) with
        | some idx =>
          match ((alGet? d.cols "p").getD []).get? idx,
                ((alGet? d.cols "t").getD []).get? idx, svals.get? idx with
          | some ps, some ts, some ss =>
            match parseFloat? ps, parseFloat? ts, parseFloat? ss with
            | some pv, some tv, some sv =>
              some (fsSet (fsSet (fsSet vars1 "ParkPressure" ⟨FVal.num pv, "dbar"⟩)
                "ParkTemperature" ⟨FVal.num tv, "degC"⟩) "ParkSalinity" ⟨FVal.num sv, "PSU"⟩)
            | _, _, _ => none
          | _, _, _ => none
        | none => none
      else if nps = 0 then
        some (fsSet (fsSet (fsSet vars1 "ParkPressure" ⟨FVal.nan, "dbar"⟩)
          "ParkTemperature" ⟨FVal.nan, "degC"⟩) "ParkSalinity" ⟨FVal.nan, "PSU"⟩)
      else some vars1

/-- One time-dependent variable of the output netcdf file: its name, the
tuple of dimension names it was created on, and its data along the time
dimension, where none embeds the fill value (the variables are created with
fill_value nan). -/
structure NcVar where
  name : String
  dims : List String
  data : List (Option Frac)
deriving DecidableEq, Repr

/-- The per-float output netcdf file, restricted to its time-indexed
content: the CYCLE_NUMBER array (integer, fill value 99999), the dimension
tuple CYCLE_NUMBER was created on, and the other time-dependent variables.
create_nc_file creates the unlimited record dimension under the name time
and creates CYCLE_NUMBER and every other time-indexed variable on the
dimension tuple (time,); no variable is created on a dimension named
N_PROF. -/
structure NcFile where
  cycles : List ℤ
  cycleDims : List String
  vars : List NcVar
deriving DecidableEq, Repr

/-- The empty archive as created by create_nc_file: no time steps yet, and
the time dimension named time. -/
def create_nc_file_empty : NcFile := ⟨[], ["time"], []⟩

/-- Specification of bisect.bisect (bisect_right) on an ascending list: the
number of elements not greater than the probe.  The source calls
bisect.bisect without importing the bisect module, which raises NameError
at run time; the call is modeled by the library semantics of bisect_right
so that the remainder of the function can be examined. -/
def bisectRight (l : List ℤ) (x : ℤ) : ℕ := (l.filter (fun c => c ≤ x)).length

/-- Net effect of the downward shift loop of add_time_step_nc on one
variable's data: every position at or after the insertion index moves one
step later and the insertion index takes the fill value. -/
def shiftFrom {α : Type} (fill : α) (l : List α) (idt : ℕ) : List α :=
  l.take idt ++ [fill] ++ l.drop idt

/-- Embedding of add_time_step_nc: the insertion index comes from
bisect.bisect on CYCLE_NUMBER; an index equal to the current length returns
without changing the file (the source returns None, embedded as none); the
shift loop runs only over variables whose dimension tuple mentions N_PROF —
since every variable of this file lives on the dimension named time, no
variable is ever shifted. -/
def add_time_step_nc (f : NcFile) (profile : ℤ) : Option (NcFile × ℕ) :=
  let idt := bisectRight f.cycles profile
  if idt = f.cycles.length then none
  else
    some ({ cycles :=
              if f.cycleDims.contains "N_PROF" then shiftFrom 99999 f.cycles idt
              else f.cycles,
            cycleDims := f.cycleDims,
            vars := f.vars.map (fun v =>
              if v.dims.contains "N_PROF" then { v with data := shiftFrom none v.data idt }
              else v) }, idt)

/-- Assignment var[idt] = value on a variable laid out along the unlimited
time dimension: an index below the current length overwrites in place, an
index at or beyond it grows the record dimension, padding skipped positions
with the fill value. -/
def setAtFill {α : Type} (fill : α) (l : List α) (idt : ℕ) (v : α) : List α :=
  if idt < l.length then l.set idt v
  else l ++ List.replicate (idt - l.length) fill ++ [v]

/-- Write or create the variable with the given name and store one value at
the given time index, as the time-dependent variable loop of
write_nc_one_step does (new variables are created on the dimension tuple
(time,) with fill value nan). -/
def ncSetVar (f : NcFile) (name : String) (idt : ℕ) (v : Option Frac) : NcFile :=
  if f.vars.any (fun w => w.name = name) then
    { f with vars := f.vars.map (fun w =>
        if w.name = name then { w with data := setAtFill none w.data idt v } else w) }
  else { f with vars := f.vars ++ [⟨name, ["time"], setAtFill none [] idt v⟩] }

/-- Embedding of write_nc_one_step, restricted to its time-indexed writes:
CYCLE_NUMBER takes the profile number at the given index; the time,
longitude and latitude coordinates are written at that index when present;
every entry of the vars dictionary is written at that index unless its name
is on the skip_vars denylist or among the non-time variables.  The numeric
values obtained from the string fields are passed in already converted, as
the branch structure does not depend on them. -/
def write_nc_one_step (f : NcFile) (varsIn : List (String × Option Frac)) (coords : Coords)
    (idt : ℕ) (profile : ℤ) : NcFile :=
  let f1 := { f with cycles := setAtFill 99999 f.cycles idt profile }
  let f2 := match alGet? coords "time" with
    | some v => ncSetVar f1 "time" idt v
    | none => f1
  let f3 := match alGet? coords "lon" with
    | some v => ncSetVar f2 "longitude" idt v
    | none => f2
  let f4 := match alGet? coords "lat" with
    | some v => ncSetVar f3 "latitude" idt v
    | none => f3
  varsIn.foldl (fun acc kv =>
    if skip_vars.contains kv.1 || non_time_vars.contains kv.1 then acc
    else ncSetVar acc kv.1 idt kv.2) f4

/-- Embedding of write_nc_file: an empty CYCLE_NUMBER array or a profile
beyond the current maximum appends at the end; an already-present profile
overwrites in place at its first position; otherwise add_time_step_nc is
invoked and the record is written at the returned insertion index (when
add_time_step_nc returns None, the subsequent indexing with None raises,
embedded as none). -/
def write_nc_file (f : NcFile) (varsIn : List (String × Option Frac)) (coords : Coords)
    (profile : ℤ) : Option NcFile :=
  match f.cycles.getLast? with
  | none => some (write_nc_one_step f varsIn coords f.cycles.length profile)
  | some lastC =>
    if lastC < profile then
      some (write_nc_one_step f varsIn coords f.cycles.length profile)
    else
      match f.cycles.findIdx? (fun c => c = profile) with
      | some i => some (write_nc_one_step f varsIn coords i profile)
      | none =>
        match add_time_step_nc f profile with
        | some (f1, idt) => some (write_nc_one_step f1 varsIn coords idt profile)
        | none => none

/-- Reading one line from the file: the remaining file content is a list of
lines (without trailing newlines, which every call site strips or matches
past); readline at end of file yields the empty string. -/
def nextLine : List (List Char) → List Char × List (List Char)
  | [] => ([], [])
  | l :: ls => (l, ls)

/-- Matcher for regex0 of parse_high_res_pts, the all-zero sentinel pattern:
eight literal zeros, then at least one character of class 0-9A-F, then an
optional bracketed decimal repeat count; anchored at the start of the line,
trailing text allowed.  Returns none when the pattern does not match,
some none for a match without repeat count, and some (some n) for a match
whose bracket holds the repeat count n. -/
def matchZeroLine (cs : List Char) : Option (Option ℕ) :=
  match cs with
  | '0' :: '0' :: '0' :: '0' :: '0' :: '0' :: '0' :: '0' :: rest =>
    if (rest.takeWhile isHexUpper).isEmpty then none
    else
      match rest.dropWhile isHexUpper with
      | '[' :: t =>
        let ds := t.takeWhile (fun c => c.isDigit)
        match t.dropWhile (fun c => c.isDigit) with
        | ']' :: _ => if ds.isEmpty then some none else some (some (natOfDigits ds))
        | _ => some none
      | _ => some none
  | _ => none

/-- Matcher for the regular high-res line pattern of parse_high_res_pts:
a nonempty line consisting only of the characters 0-9A-F and square
brackets, anchored at both ends. -/
def matchHexLine (cs : List Char) : Bool :=
  !cs.isEmpty && cs.all (fun c => isHexUpper c || c = '[' || c = ']')

/-- Start and end index of every fixed-width hex field, computed from the
per-field digit counts num_len exactly as the start_idx/end_idx lists of
parse_high_res_pts. -/
def fieldBounds (numLen : List ℕ) : List (ℕ × ℕ) :=
  (numLen.foldl (fun (acc : List (ℕ × ℕ) × ℕ) n =>
    (acc.1 ++ [(acc.2, acc.2 + n)], acc.2 + n)) ([], 0)).1

/-- Inner field loop of parse_high_res_pts over one line: the values array
starts as NaN (none) everywhere; a field whose slice converts stores its
value at position val_count and increments val_count (the source indexes
values with val_count, not with the field number, so a failed conversion
shifts later fields one slot down); a failed conversion (a bracket inside
the slice) is skipped; a line shorter than the next field boundary ends the
field loop, leaving the remaining slots NaN. -/
def decodeFieldsAux (cs : List Char) (vals : List (Option ℕ)) (valCount : ℕ) :
    List (ℕ × ℕ) → List (Option ℕ)
  | [] => vals
  | (s, e) :: rest =>
    if e ≤ cs.length then
      match hexValue? ((cs.drop s).take (e - s)) with
      | some v => decodeFieldsAux cs (vals.set valCount (some v)) (valCount + 1) rest
      | none => decodeFieldsAux cs vals valCount rest
    else vals

/-- Decoding of one regular high-res line into the row of raw field values
that the source stores into hr_values. -/
def decodeFields (numLen : List ℕ) (cs : List Char) : List (Option ℕ) :=
  decodeFieldsAux cs (List.replicate numLen.length none) 0 (fieldBounds numLen)

/-- State returned by the main line loop of parse_high_res_pts: the number
of decoded samples, the decoded raw rows (hr_values up to nhighres), the
incomplete flag, and the unread remainder of the file.  The loop recurses on
the number of remaining iterations; the iteration counter i and the bound
nlines reproduce the Python loop "for i in range(nlines)". -/
structure HrLoopOut where
  nhighres : ℕ
  rows : List (List (Option ℕ))
  incomplete : Bool
  rest : List (List Char)
deriving DecidableEq, Repr

/-- Main line loop of parse_high_res_pts.  Per iteration: read and strip a
line; a line holding a hash character raises (none); a line matching the
all-zero pattern whose repeat count, plus the lines read so far, reaches the
expected line count ends the loop with incomplete = False; otherwise that
line falls through to the regular pattern; a line matching the regular
pattern is decoded and stored; any other line ends the loop with
incomplete = True (and is pushed back unless it holds the text Resm).
Running through all iterations sets incomplete = False (the for-else). -/
def hrLoop (numLen : List ℕ) (nlines : ℕ) :
    ℕ → ℕ → List (List Char) → ℕ → List (List (Option ℕ)) → Option HrLoopOut
  | 0, _, lines, nh, rows => some ⟨nh, rows, false, lines⟩
  | k + 1, i, lines, nh, rows =>
    let raw := (nextLine lines).1
    let rest := (nextLine lines).2
    let line := stripChars raw
    if containsSub ['#'] line then none
    else if (match matchZeroLine line with
             | some g => decide (nlines ≤ g.getD 1 + i)
             | none => false) then some ⟨nh, rows, false, rest⟩
    else if matchHexLine line then
      hrLoop numLen nlines k (i + 1) rest (nh + 1) (rows ++ [decodeFields numLen line])
    else
      some ⟨nh, rows, true,
        if containsSub ("Resm".data) line then rest else raw :: rest⟩

/-- Per-channel zero-reference constants and scale factors of
convert_high_res_data (the hex_conv matrix): pressure 32768 and 10,
temperature 61440 and 1000, salinity proxy 61440 and 1000. -/
def hex_conv : List (ℕ × ℕ) := [(32768, 10), (61440, 1000), (61440, 1000)]

/-- Sign-rule conversion of one raw primary-channel value, embedding the
t_hi/t_lo/t_nan arithmetic of convert_high_res_data: a raw value equal to
the reference yields NaN (t_hi and t_lo are zero and t_nan stays NaN);
otherwise exactly one of t_hi, t_lo is one and the result is
(raw - 65536)/scale above the reference and raw/scale below it.  A raw NaN
(short line) propagates to NaN. -/
def convertChannel (ref scale : ℕ) : Option ℕ → Option Frac
  | none => none
  | some raw =>
    if raw = ref then none
    else
      let tHi : ℤ := if ref < raw then 1 else 0
      let tLo : ℤ := if raw < ref then 1 else 0
      some ⟨tHi * ((raw : ℤ) - 65536) + tLo * (raw : ℤ), scale⟩

/-- Embedding of the statement hr_values[hr_values == 2**24 - 1] = np.nan
applied entry-wise after conversion. -/
def maskMax24 (q? : Option Frac) : Option Frac :=
  q?.bind (fun q => if Frac.eqv q (Frac.ofNat 16777215) then none else some q)

/-- Conversion of one decoded row for the APEX channel layout of
convert_high_res_data: the column reordering by index hex plus index nbin is
the identity ([0,1,2] and [3]), the three leading columns get the sign rule
with the hex_conv constants, the bin-count column is kept as a number, and
the 24-bit maximum mask is applied to every entry afterwards. -/
def convertRowApex (row : List (Option ℕ)) : List (Option Frac) :=
  let conv := List.zipWith (fun hc v => convertChannel hc.1 hc.2 v) hex_conv (row.take 3)
  let rest := (row.drop 3).map (fun v? => v?.map Frac.ofNat)
  (conv ++ rest).map maskMax24

/-- Embedding of convert_high_res_data for the APEX path (navis_bgc false,
has_ph false): row-wise conversion; the early return for a zero column
count cannot trigger because every row has the four APEX columns. -/
def convert_high_res_data (rows : List (List (Option ℕ))) : List (List (Option Frac)) :=
  rows.map convertRowApex

/-- Result dictionary of parse_high_res_pts: the leading repeat count nrep,
the number of decoded samples nhighres, the incomplete flag, and the
converted sample matrix hr_vals. -/
structure Pts where
  nrep : ℕ
  nhighres : ℕ
  incomplete : Bool
  hr_vals : List (List (Option Frac))
deriving DecidableEq, Repr

/-- Field widths of one high-res line for the APEX path of
parse_high_res_pts: pressure, temperature, salinity, bin count. -/
def numLenApex : List ℕ := [4, 4, 4, 2]

/-- Embedding of parse_high_res_pts for the APEX path (navis_bgc false):
the first line, when it matches the all-zero pattern, fixes the leading
repeat count nrep (defaulting to one without a bracket) and is consumed,
otherwise the file pointer is reset and nrep is zero; the loop then runs for
nbin - nrep iterations.  A leading repeat count larger than nbin makes
np.full raise on a negative dimension (none); the hash check inside the
loop raises likewise (none). -/
def parse_high_res_pts (lines : List (List Char)) (nbin : ℕ) : Option Pts :=
  let raw := (nextLine lines).1
  let rest := (nextLine lines).2
  let line := stripChars raw
  let init : ℕ × List (List Char) :=
    match matchZeroLine line with
    | some g => (g.getD 1, rest)
    | none => (0, lines)
  if nbin < init.1 then none
  else
    match hrLoop numLenApex (nbin - init.1) (nbin - init.1) 0 init.2 0 [] with
    | none => none
    | some out =>
      some ⟨init.1, out.nhighres, out.incomplete, convert_high_res_data out.rows⟩

/-- Decoded physical value of one primary-channel field as stored by
convert_high_res_data: the sign-rule conversion followed by the 24-bit
maximum mask. -/
def decodePrimary (ref scale raw : ℕ) : Option Frac :=
  maskMax24 (convertChannel ref scale (some raw))

/-- Line class of one decodable sample line of the high-res block: after
stripping it holds no hash character, does not match the all-zero sentinel
pattern, and matches the regular hex pattern. -/
def SampleLine (l : List Char) : Prop :=
  containsSub ['#'] (stripChars l) = false ∧
  matchZeroLine (stripChars l) = none ∧
  matchHexLine (stripChars l) = true

/-- Line class of an all-zero sentinel line carrying the bracketed repeat
count n, with no hash character. -/
def ZeroLineRep (l : List Char) (n : ℕ) : Prop :=
  containsSub ['#'] (stripChars l) = false ∧
  matchZeroLine (stripChars l) = some (some n)

instance (l : List Char) : Decidable (SampleLine l) := by
  unfold SampleLine; infer_instance

instance (l : List Char) (n : ℕ) : Decidable (ZeroLineRep l n) := by
  unfold ZeroLineRep; infer_instance

/-- Whether the output netcdf file holds a time-dependent variable with the
given name. -/
def hasVar (f : NcFile) (name : String) : Bool :=
  f.vars.any (fun w => w.name = name)

/-- The 24-bit maximum mask keeps every value other than 16777215. -/
lemma maskMax24_pass (f : Frac) (h : Frac.eqv f (Frac.ofNat 16777215) = false) :
    maskMax24 (some f) = some f := by
  simp [maskMax24, h]

/-- A raw value strictly above the reference decodes, after the 24-bit
mask, to the rational (raw - 65536) / scale. -/
lemma decodePrimary_above (ref scale raw : ℕ) (h : ref < raw) (hraw : raw < 65536)
    (hscale : 0 < scale) :
    (decodePrimary ref scale raw).map Frac.toRat = some (((raw : ℚ) - 65536) / (scale : ℚ)) := by
  have hne : raw ≠ ref := Nat.ne_of_gt h
  have hnlt : ¬ raw < ref := Nat.not_lt.mpr (Nat.le_of_lt h)
  simp only [decodePrimary, convertChannel, if_neg hne, if_pos h, if_neg hnlt]
  have hmask : Frac.eqv ⟨1 * ((raw : ℤ) - 65536) + 0 * (raw : ℤ), scale⟩ (Frac.ofNat 16777215) = false := by
    simp only [Frac.eqv, Frac.ofNat, beq_eq_false_iff_ne, ne_eq]
    intro hcontra
    push_cast at hcontra
    have h1 : (raw : ℤ) < 65536 := by exact_mod_cast hraw
    have h2 : (1 : ℤ) ≤ (scale : ℤ) := by exact_mod_cast hscale
    have h3 : (16777215 : ℤ) * 1 ≤ 16777215 * (scale : ℤ) :=
      mul_le_mul_of_nonneg_left h2 (by norm_num)
    linarith
  rw [maskMax24_pass _ hmask]
  simp only [Option.map_some']
  congr 1
  simp only [Frac.toRat]
  push_cast
  ring

/-- A raw value strictly below the reference decodes, after the 24-bit
mask, to the rational raw / scale. -/
lemma decodePrimary_below (ref scale raw : ℕ) (h : raw < ref) (hraw : raw < 65536)
    (hscale : 0 < scale) :
    (decodePrimary ref scale raw).map Frac.toRat = some ((raw : ℚ) / (scale : ℚ)) := by
  have hne : raw ≠ ref := Nat.ne_of_lt h
  have hnlt : ¬ ref < raw := Nat.not_lt.mpr (Nat.le_of_lt h)
  simp only [decodePrimary, convertChannel, if_neg hne, if_neg hnlt, if_pos h]
  have hmask : Frac.eqv ⟨0 * ((raw : ℤ) - 65536) + 1 * (raw : ℤ), scale⟩ (Frac.ofNat 16777215) = false := by
    simp only [Frac.eqv, Frac.ofNat, beq_eq_false_iff_ne, ne_eq]
    intro hcontra
    push_cast at hcontra
    have h1 : (raw : ℤ) < 65536 := by exact_mod_cast hraw
    have h2 : (1 : ℤ) ≤ (scale : ℤ) := by exact_mod_cast hscale
    have h3 : (16777215 : ℤ) * 1 ≤ 16777215 * (scale : ℤ) :=
      mul_le_mul_of_nonneg_left h2 (by norm_num)
    linarith
  rw [maskMax24_pass _ hmask]
  simp only [Option.map_some']
  congr 1
  simp only [Frac.toRat]
  push_cast
  ring

/-- A raw value equal to the reference decodes to NaN. -/
lemma decodePrimary_ref (ref scale : ℕ) :
    decodePrimary ref scale ref = none := by
  simp [decodePrimary, convertChannel, maskMax24]

/-- C2: for each primary channel, a raw field strictly above the channel's
zero-reference constant (32768 for pressure, 61440 for temperature and the
salinity proxy) decodes to (raw - 65536)/scale, strictly below to
raw/scale, and exactly equal to the reference to NaN, with scale 10 for
pressure and 1000 for temperature and salinity; the row conversion of
convert_high_res_data applies exactly these constants to the three primary
columns. -/
theorem c2_primary_channel_sign_rule (raw : ℕ) (hraw : raw < 65536) :
    ((raw = 32768 → decodePrimary 32768 10 raw = none) ∧
     (32768 < raw →
       (decodePrimary 32768 10 raw).map Frac.toRat = some (((raw : ℚ) - 65536) / 10)) ∧
     (raw < 32768 →
       (decodePrimary 32768 10 raw).map Frac.toRat = some ((raw : ℚ) / 10)) ∧
     (raw = 61440 → decodePrimary 61440 1000 raw = none) ∧
     (61440 < raw →
       (decodePrimary 61440 1000 raw).map Frac.toRat = some (((raw : ℚ) - 65536) / 1000)) ∧
     (raw < 61440 →
       (decodePrimary 61440 1000 raw).map Frac.toRat = some ((raw : ℚ) / 1000))) ∧
    (∀ p t s nb : ℕ,
      convertRowApex [some p, some t, some s, some nb] =
        [decodePrimary 32768 10 p, decodePrimary 61440 1000 t,
         decodePrimary 61440 1000 s, maskMax24 (some (Frac.ofNat nb))]) := by
  refine ⟨⟨?_, ?_, ?_, ?_, ?_, ?_⟩, ?_⟩
  · rintro rfl; exact decodePrimary_ref 32768 10
  · intro h; exact decodePrimary_above 32768 10 raw h hraw (by norm_num)
  · intro h; exact decodePrimary_below 32768 10 raw h hraw (by norm_num)
  · rintro rfl; exact decodePrimary_ref 61440 1000
  · intro h; exact decodePrimary_above 61440 1000 raw h hraw (by norm_num)
  · intro h; exact decodePrimary_below 61440 1000 raw h hraw (by norm_num)
  · intro p t s nb; rfl

/-- Witness for C2 at the concrete raw values 40000 (above the pressure
reference), 61440 (equal to the temperature reference) and 100 (below the
temperature reference). -/
theorem c2_primary_channel_sign_rule_witness :
    (decodePrimary 32768 10 40000).map Frac.toRat = some (((40000 : ℚ) - 65536) / 10) ∧
    decodePrimary 61440 1000 61440 = none ∧
    (decodePrimary 61440 1000 100).map Frac.toRat = some ((100 : ℚ) / 1000) :=
  ⟨(c2_primary_channel_sign_rule 40000 (by norm_num)).1.2.1 (by norm_num),
   (c2_primary_channel_sign_rule 61440 (by norm_num)).1.2.2.2.1 rfl,
   (c2_primary_channel_sign_rule 100 (by norm_num)).1.2.2.2.2.2 (by norm_num)⟩

/-- Unfolding of one iteration of the line loop of parse_high_res_pts. -/
lemma hrLoop_succ (numLen : List ℕ) (nlines k i : ℕ) (lines : List (List Char)) (nh : ℕ)
    (rows : List (List (Option ℕ))) :
    hrLoop numLen nlines (k + 1) i lines nh rows =
      (if containsSub ['#'] (stripChars (nextLine lines).1) then none
       else if (match matchZeroLine (stripChars (nextLine lines).1) with
                | some g => decide (nlines ≤ g.getD 1 + i)
                | none => false) then some ⟨nh, rows, false, (nextLine lines).2⟩
       else if matchHexLine (stripChars (nextLine lines).1) then
         hrLoop numLen nlines k (i + 1) (nextLine lines).2 (nh + 1)
           (rows ++ [decodeFields numLen (stripChars (nextLine lines).1)])
       else some ⟨nh, rows, true,
         if containsSub ("Resm".data) (stripChars (nextLine lines).1) then (nextLine lines).2
         else (nextLine lines).1 :: (nextLine lines).2⟩) := rfl

/-- Running the line loop over a block of decodable sample lines decodes
each of them in order. -/
lemma hrLoop_sample_prefix (numLen : List ℕ) (nlines : ℕ) (pre : List (List Char)) :
    ∀ (k i nh : ℕ) (tail : List (List Char)) (rows : List (List (Option ℕ))),
      (∀ l ∈ pre, SampleLine l) → pre.length ≤ k →
      hrLoop numLen nlines k i (pre ++ tail) nh rows =
        hrLoop numLen nlines (k - pre.length) (i + pre.length) tail (nh + pre.length)
          (rows ++ pre.map (fun l => decodeFields numLen (stripChars l))) := by
  induction pre with
  | nil => intro k i nh tail rows _ _; simp
  | cons l pre ih =>
    intro k i nh tail rows hall hlen
    have hl : SampleLine l := hall l (by simp)
    have hpre : ∀ x ∈ pre, SampleLine x := fun x hx => hall x (by simp [hx])
    cases k with
    | zero => simp at hlen
    | succ k =>
      rw [List.cons_append, hrLoop_succ]
      simp only [nextLine]
      rw [hl.1, hl.2.1, hl.2.2]
      simp only [Bool.false_eq_true, if_false, if_true]
      rw [ih k (i + 1) (nh + 1) tail (rows ++ [decodeFields numLen (stripChars l)]) hpre
        (by simp at hlen; omega)]
      have e1 : i + 1 + pre.length = i + (l :: pre).length := by simp; omega
      have e2 : nh + 1 + pre.length = nh + (l :: pre).length := by simp; omega
      have e3 : k - pre.length = (k + 1) - (l :: pre).length := by simp
      have e4 : (rows ++ [decodeFields numLen (stripChars l)]) ++
          pre.map (fun x => decodeFields numLen (stripChars x)) =
          rows ++ (l :: pre).map (fun x => decodeFields numLen (stripChars x)) := by simp
      rw [e1, e2, e3, e4]

/-- The line loop of parse_high_res_pts decodes at most as many samples as
it has iterations, and keeps one stored row per counted sample. -/
lemma hrLoop_count (numLen : List ℕ) (nlines : ℕ) :
    ∀ (k i : ℕ) (lines : List (List Char)) (nh : ℕ) (rows : List (List (Option ℕ)))
      (out : HrLoopOut),
      hrLoop numLen nlines k i lines nh rows = some out →
      out.nhighres ≤ nh + k ∧ out.nhighres + rows.length = nh + out.rows.length := by
  intro k
  induction k with
  | zero =>
    intro i lines nh rows out h
    simp only [hrLoop] at h
    injection h with h
    subst h
    simp
  | succ k ih =>
    intro i lines nh rows out h
    rw [hrLoop_succ] at h
    split at h
    · exact absurd h (by simp)
    · split at h
      · injection h with h
        subst h
        simp
      · split at h
        · have := ih (i + 1) (nextLine lines).2 (nh + 1)
            (rows ++ [decodeFields numLen (stripChars (nextLine lines).1)]) out h
          constructor
          · omega
          · simp at this
            omega
        · injection h with h
          subst h
          simp

/-- C10: every successfully parsed high-resolution block reports a valid
sample count of at most the declared bin count minus the leading all-zero
repeat count, and the decoded array hr_vals holds exactly that many rows
(parse_msg_middle then exposes this count as both NHighResPTS and
ProfileLength). -/
theorem c10_sample_count_bound (lines : List (List Char)) (nbin r n m : ℕ)
    (h : (parse_high_res_pts lines nbin).map
        (fun p => (p.nrep, p.nhighres, p.hr_vals.length)) = some (r, n, m)) :
    n + r ≤ nbin ∧ m = n := by
  rcases hp : parse_high_res_pts lines nbin with _ | pts
  · rw [hp] at h; simp at h
  · rw [hp] at h
    simp only [Option.map_some'] at h
    injection h with h
    have hr : pts.nrep = r := congrArg Prod.fst h
    have hn : pts.nhighres = n := congrArg (fun q => q.2.1) h
    have hm : pts.hr_vals.length = m := congrArg (fun q => q.2.2) h
    simp only [parse_high_res_pts] at hp
    split at hp
    · exact absurd hp (by simp)
    · rename_i hnb
      split at hp
      · exact absurd hp (by simp)
      · rename_i out heq
        injection hp with hp
        subst hp
        simp only [not_lt] at hnb
        obtain ⟨h1, h2⟩ := hrLoop_count numLenApex _ _ _ _ _ _ _ heq
        simp only at hr hn hm
        constructor
        · omega
        · simp only [List.length_nil, Nat.add_zero, Nat.zero_add] at h2
          rw [← hm, ← hn]
          simp only [convert_high_res_data, List.length_map]
          omega

/-- Witness for C10: a block of two decodable lines against a declared bin
count of three parses with two samples and two stored rows. -/
theorem c10_sample_count_bound_witness : (2 : ℕ) + 0 ≤ 3 ∧ (2 : ℕ) = 2 :=
  c10_sample_count_bound ["0BB8271013880A".data, "0BB8271013880A".data] 3 0 2 2 (by decide)

/-- C4: a high-resolution block of k decodable sample lines followed by an
all-zero sentinel line with repeat count N, where k + N equals the declared
bin count, parses to exactly k valid samples with incomplete = false. -/
theorem c4_sentinel_completes_block (pre post : List (List Char)) (z : List Char)
    (N nbin : ℕ) (hpre : ∀ l ∈ pre, SampleLine l) (hz : ZeroLineRep z N) (hN : 1 ≤ N)
    (hbin : pre.length + N = nbin) :
    ∃ pts, parse_high_res_pts (pre ++ z :: post) nbin = some pts ∧
      pts.nhighres = pre.length ∧ pts.incomplete = false ∧
      pts.hr_vals = convert_high_res_data
        (pre.map (fun l => decodeFields numLenApex (stripChars l))) := by
  cases pre with
  | nil =>
    simp only [List.length_nil, Nat.zero_add] at hbin
    refine ⟨⟨N, 0, false, []⟩, ?_, rfl, rfl, rfl⟩
    simp only [parse_high_res_pts, List.nil_append, nextLine]
    simp only [hz.2, Option.getD]
    have hnb : ¬ nbin < N := by omega
    rw [if_neg hnb]
    have h0 : nbin - N = 0 := by omega
    rw [h0]
    simp [hrLoop, convert_high_res_data]
  | cons l pre' =>
    have hSl : SampleLine l := hpre l (by simp)
    refine ⟨⟨0, (l :: pre').length, false,
      convert_high_res_data ((l :: pre').map (fun x => decodeFields numLenApex (stripChars x)))⟩,
      ?_, rfl, rfl, rfl⟩
    simp only [parse_high_res_pts, List.cons_append, nextLine]
    simp only [hSl.2.1]
    have hnb : ¬ nbin < 0 := by omega
    rw [if_neg hnb, Nat.sub_zero]
    rw [← List.cons_append, hrLoop_sample_prefix numLenApex nbin (l :: pre') nbin 0 0
      (z :: post) [] hpre (by simp at hbin ⊢; omega)]
    have hrem : nbin - (l :: pre').length = N := by simp at hbin ⊢; omega
    rw [hrem]
    obtain ⟨N', rfl⟩ : ∃ N', N = N' + 1 := ⟨N - 1, by omega⟩
    rw [hrLoop_succ]
    simp only [nextLine]
    rw [hz.1, hz.2]
    have hstop : nbin ≤ (N' + 1) + (0 + (l :: pre').length) := by simp at hbin ⊢; omega
    simp only [Option.getD, Bool.false_eq_true, if_false, decide_eq_true_eq, if_pos hstop]
    simp

/-- Witness for C4: two decodable lines followed by a sentinel with repeat
count three against a declared bin count of five. -/
theorem c4_sentinel_completes_block_witness :
    ∃ pts, parse_high_res_pts
        ["0BB8271013880A".data, "0BB8271013880A".data, "000000000000[3]".data] 5 =
        some pts ∧ pts.nhighres = 2 ∧ pts.incomplete = false := by
  obtain ⟨pts, h1, h2, h3, _⟩ := c4_sentinel_completes_block
    ["0BB8271013880A".data, "0BB8271013880A".data] [] ("000000000000[3]".data) 3 5
    (by decide) (by decide) (by decide) (by decide)
  exact ⟨pts, h1, h2, h3⟩

/-- C5 counterexample: a mid-block all-zero line whose repeat count (one)
is below the remaining bin count is not skipped: it is decoded as a data
sample (a row of zeros), so the block of one valid line, the sentinel and
one more valid line against bin count three yields three samples, not two. -/
theorem c5_counterexample_midblock_zero_decoded :
    parse_high_res_pts
      ["0BB8271013880A".data, "00000000000000".data, "0BB8271013880A".data] 3 =
      some ⟨0, 3, false,
        [[some ⟨3000, 10⟩, some ⟨10000, 1000⟩, some ⟨5000, 1000⟩, some ⟨10, 1⟩],
         [some ⟨0, 10⟩, some ⟨0, 1000⟩, some ⟨0, 1000⟩, some ⟨0, 1⟩],
         [some ⟨3000, 10⟩, some ⟨10000, 1000⟩, some ⟨5000, 1000⟩, some ⟨10, 1⟩]]⟩ ∧
    (parse_high_res_pts
      ["0BB8271013880A".data, "00000000000000".data, "0BB8271013880A".data] 3).map
        Pts.nhighres ≠ some 2 := by
  constructor
  · decide
  · decide

/-- C5 as amended: when the loop meets an all-zero line whose repeat count
plus the lines already handled reaches the expected line count, decoding
stops at once with incomplete = false and the samples decoded so far; when
the repeat count falls short of that, the line is not skipped — it falls
through to the regular pattern and is decoded and stored as a sample. -/
theorem c5_amended_sentinel_stop_or_fallthrough (nlines k i nh : ℕ)
    (rest : List (List Char)) (rows : List (List (Option ℕ)))
    (line : List Char) (g : Option ℕ)
    (hhash : containsSub ['#'] (stripChars line) = false)
    (hz : matchZeroLine (stripChars line) = some g) :
    (nlines ≤ g.getD 1 + i →
       hrLoop numLenApex nlines (k + 1) i (line :: rest) nh rows =
         some ⟨nh, rows, false, rest⟩) ∧
    (g.getD 1 + i < nlines → matchHexLine (stripChars line) = true →
       hrLoop numLenApex nlines (k + 1) i (line :: rest) nh rows =
         hrLoop numLenApex nlines k (i + 1) rest (nh + 1)
           (rows ++ [decodeFields numLenApex (stripChars line)])) := by
  constructor
  · intro hstop
    rw [hrLoop_succ]
    simp only [nextLine]
    rw [hhash, hz]
    simp [hstop]
  · intro hlt hhex
    rw [hrLoop_succ]
    simp only [nextLine]
    rw [hhash, hz, hhex]
    simp [Nat.not_le.mpr hlt]

/-- Witness for the amended C5: a full-width zero line stops the loop when
one repeat plus one handled line reaches an expected count of two, and is
decoded as a sample when three lines are expected. -/
theorem c5_amended_witness :
    (hrLoop numLenApex 2 1 1 ["00000000000000".data] 1 [] = some ⟨1, [], false, []⟩) ∧
    (hrLoop numLenApex 3 2 0 ["00000000000000".data] 0 [] =
       hrLoop numLenApex 3 1 1 [] 1 ([] ++ [decodeFields numLenApex (stripChars ("00000000000000".data))])) :=
  ⟨(c5_amended_sentinel_stop_or_fallthrough 2 0 1 1 [] [] ("00000000000000".data) none
      (by decide) (by decide)).1 (by decide),
   (c5_amended_sentinel_stop_or_fallthrough 3 1 0 0 [] [] ("00000000000000".data) none
      (by decide) (by decide)).2 (by decide) (by decide)⟩

/-- C6 counterexample: a line of four hex characters, shorter than the
expected width of fourteen, does not end decoding: the block of one valid
line, the short line and one more valid line yields three samples with
incomplete = false, the short line contributing its one decodable field and
NaN for the rest. -/
theorem c6_counterexample_short_line_continues :
    parse_high_res_pts ["0BB8271013880A".data, "0A1B".data, "0BB8271013880A".data] 3 =
      some ⟨0, 3, false,
        [[some ⟨3000, 10⟩, some ⟨10000, 1000⟩, some ⟨5000, 1000⟩, some ⟨10, 1⟩],
         [some ⟨2587, 10⟩, none, none, none],
         [some ⟨3000, 10⟩, some ⟨10000, 1000⟩, some ⟨5000, 1000⟩, some ⟨10, 1⟩]]⟩ ∧
    (parse_high_res_pts ["0BB8271013880A".data, "0A1B".data, "0BB8271013880A".data] 3).map
        Pts.incomplete ≠ some true := by
  constructor
  · decide
  · decide

/-- C6 as amended: a hex-only line shorter than the expected total field
width neither raises nor ends decoding: it is stored as a sample (its
decodable leading fields set, the rest left NaN) and the loop continues
with the next line, preserving all previously decoded rows. -/
theorem c6_amended_short_line_stored (nlines k i nh : ℕ)
    (rest : List (List Char)) (rows : List (List (Option ℕ))) (line : List Char)
    (hhash : containsSub ['#'] (stripChars line) = false)
    (hz : matchZeroLine (stripChars line) = none)
    (hhex : matchHexLine (stripChars line) = true)
    (_hshort : (stripChars line).length < 14) :
    hrLoop numLenApex nlines (k + 1) i (line :: rest) nh rows =
      hrLoop numLenApex nlines k (i + 1) rest (nh + 1)
        (rows ++ [decodeFields numLenApex (stripChars line)]) := by
  rw [hrLoop_succ]
  simp only [nextLine]
  rw [hhash, hz, hhex]
  simp

/-- Witness for the amended C6 at the short line 0A1B. -/
theorem c6_amended_witness :
    hrLoop numLenApex 3 2 0 ["0A1B".data] 0 [] =
      hrLoop numLenApex 3 1 1 [] 1 ([] ++ [decodeFields numLenApex (stripChars ("0A1B".data))]) :=
  c6_amended_short_line_stored 3 1 0 0 [] [] ("0A1B".data)
    (by decide) (by decide) (by decide) (by decide)

/-- C3 counterexample: with both a profile-termination time (100) and a
satellite-fix time (200) present, assign_time stores the profile-termination
time, not the fix time, so the fix does not take precedence. -/
theorem c3_counterexample_profile_time_wins :
    (alGet? (assign_time (fun _ => ⟨0, 1⟩) []
        [("Profile_time", some ⟨100, 1⟩), ("Fix_time", some ⟨200, 1⟩)]) "time" =
      some (some ⟨100, 1⟩)) ∧
    ¬ (alGet? (assign_time (fun _ => ⟨0, 1⟩) []
        [("Profile_time", some ⟨100, 1⟩), ("Fix_time", some ⟨200, 1⟩)]) "time" =
      some (some ⟨200, 1⟩)) := by
  constructor
  · decide
  · decide

/-- C3 as amended: when no time is present yet, assign_time uses the
profile-termination time first, then the satellite-fix time, then the raw
MessageTime field converted by get_seconds_since_1970, and stores NaN with
a warning when none of the three is available. -/
theorem c3_amended_time_precedence (conv : FVal → Frac) (vars : FieldSet) (coords : Coords)
    (hnot : alMem coords "time" = false) :
    (alMem coords "Profile_time" = true →
       assign_time conv vars coords =
         alSet coords "time" ((alGet? coords "Profile_time").getD none)) ∧
    (alMem coords "Profile_time" = false → alMem coords "Fix_time" = true →
       assign_time conv vars coords =
         alSet coords "time" ((alGet? coords "Fix_time").getD none)) ∧
    (alMem coords "Profile_time" = false → alMem coords "Fix_time" = false →
       ∀ f, fsGet? vars "MessageTime" = some f →
         assign_time conv vars coords = alSet coords "time" (some (conv f.value))) ∧
    (alMem coords "Profile_time" = false → alMem coords "Fix_time" = false →
       fsGet? vars "MessageTime" = none →
       assign_time conv vars coords = alSet coords "time" none) := by
  refine ⟨?_, ?_, ?_, ?_⟩
  · intro hp
    simp [assign_time, hnot, hp]
  · intro hp hf
    simp [assign_time, hnot, hp, hf]
  · intro hp hf f hm
    simp [assign_time, hnot, hp, hf, hm]
  · intro hp hf hm
    simp [assign_time, hnot, hp, hf, hm]

/-- Witness for the amended C3: both times present stores Profile_time,
only Fix_time present stores Fix_time. -/
theorem c3_amended_time_precedence_witness :
    (assign_time (fun _ => ⟨0, 1⟩) []
        [("Profile_time", some ⟨100, 1⟩), ("Fix_time", some ⟨200, 1⟩)] =
      alSet [("Profile_time", some ⟨100, 1⟩), ("Fix_time", some ⟨200, 1⟩)] "time"
        ((alGet? [("Profile_time", some (⟨100, 1⟩ : Frac)), ("Fix_time", some ⟨200, 1⟩)]
          "Profile_time").getD none)) ∧
    (assign_time (fun _ => ⟨0, 1⟩) [] [("Fix_time", some ⟨200, 1⟩)] =
      alSet [("Fix_time", some ⟨200, 1⟩)] "time"
        ((alGet? [("Fix_time", some (⟨200, 1⟩ : Frac))] "Fix_time").getD none)) :=
  ⟨(c3_amended_time_precedence (fun _ => ⟨0, 1⟩) []
      [("Profile_time", some ⟨100, 1⟩), ("Fix_time", some ⟨200, 1⟩)] (by decide)).1 (by decide),
   ((c3_amended_time_precedence (fun _ => ⟨0, 1⟩) []
      [("Fix_time", some ⟨200, 1⟩)] (by decide)).2.1 (by decide) (by decide))⟩

/-- C7: check_conv_need_file reports a file unchanged (some false) exactly
when a prior ledger entry with an identical hash exists under the exact
path key or, with no exact path match, under the (float id, profile, file
type) key, the compared entry being in each case the last-appended row for
that key. -/
theorem c7_change_detection (log : List LogEntry) (filename hash fname : String)
    (fid prof : ℕ) (ft : String)
    (hparse : parse_filename filename = some (fname, fid, prof, ft)) :
    check_conv_need_file log filename hash = some false ↔
      ((log.filter (fun e => e.filename == filename)) ≠ [] ∧
        (log.filter (fun e => e.filename == filename)).getLast?.map
          (fun e => e.checksum) = some hash) ∨
      ((log.filter (fun e => e.filename == filename)) = [] ∧
        (log.filter (fun e => e.floatid == fid && e.profile == prof && e.ftype == ft)) ≠ [] ∧
        (log.filter (fun e => e.floatid == fid && e.profile == prof && e.ftype == ft)).getLast?.map
          (fun e => e.checksum) = some hash) := by
  simp only [check_conv_need_file, hparse]
  by_cases hex : (log.filter (fun e => e.filename == filename)) = []
  · rw [hex]
    simp only [List.length_nil, ne_eq, not_true_eq_false, false_and, false_or,
      if_neg (by simp : ¬ (0 : ℕ) ≠ 0)]
    by_cases hsec : (log.filter (fun e => e.floatid == fid && e.profile == prof && e.ftype == ft)) = []
    · rw [hsec]
      simp
    · rw [if_neg (by simp [List.length_eq_zero, hsec])]
      by_cases hck : (log.filter (fun e => e.floatid == fid && e.profile == prof && e.ftype == ft)).getLast?.map (fun e => e.checksum) = some hash
      · simp [hck, hsec]
      · simp [hck, hsec]
  · rw [if_pos (by simpa [List.length_eq_zero] using hex)]
    by_cases hck : (log.filter (fun e => e.filename == filename)).getLast?.map (fun e => e.checksum) = some hash
    · simp [hck, hex]
    · simp [hck, hex]

/-- Witness for C7: a two-row ledger whose last row for the exact path key
carries the current hash reports the file unchanged. -/
theorem c7_change_detection_witness :
    check_conv_need_file
      [⟨"a/1.2.msg", 1, 9, "msg", 2, 10, "h1", "d"⟩,
       ⟨"a/1.2.msg", 1, 9, "msg", 2, 11, "h2", "d"⟩] "a/1.2.msg" "h2" = some false :=
  (c7_change_detection
      [⟨"a/1.2.msg", 1, 9, "msg", 2, 10, "h1", "d"⟩,
       ⟨"a/1.2.msg", 1, 9, "msg", 2, 11, "h2", "d"⟩] "a/1.2.msg" "h2" "1.2.msg" 1 2 "msg"
      (by decide)).mpr (by decide)

/-- Updating the data of one named variable never changes the set of
variable names in the file. -/
lemma any_map_update (l : List NcVar) (n name : String) (idt : ℕ) (v : Option Frac) :
    ((l.map (fun w => if w.name = n then { w with data := setAtFill none w.data idt v }
        else w)).any (fun w => w.name = name)) = l.any (fun w => w.name = name) := by
  induction l with
  | nil => rfl
  | cons a l ih =>
    simp only [List.map_cons, List.any_cons, ih]
    congr 1
    by_cases ha : a.name = n
    · simp [ha]
    · simp [ha]

/-- Writing a value for the variable named n leaves the presence of every
other variable name unchanged. -/
lemma hasVar_ncSetVar_ne (f : NcFile) (n name : String) (idt : ℕ) (v : Option Frac)
    (h : n ≠ name) :
    hasVar (ncSetVar f n idt v) name = hasVar f name := by
  simp only [ncSetVar, hasVar]
  split
  · exact any_map_update f.vars n name idt v
  · simp [List.any_append, h]

/-- Changing only the CYCLE_NUMBER data leaves every variable name
unchanged. -/
lemma hasVar_setCycles (f : NcFile) (c : List ℤ) (name : String) :
    hasVar { f with cycles := c } name = hasVar f name := rfl

/-- The time-dependent variable loop of write_nc_one_step never writes a
variable whose name is on the skip_vars denylist, so such a name can only
be present if it already was. -/
lemma hasVar_fold_skip (idt : ℕ) (name : String) (hskip : skip_vars.contains name = true) :
    ∀ (varsIn : List (String × Option Frac)) (acc : NcFile),
      hasVar (varsIn.foldl (fun acc kv =>
        if skip_vars.contains kv.1 || non_time_vars.contains kv.1 then acc
        else ncSetVar acc kv.1 idt kv.2) acc) name = hasVar acc name := by
  intro varsIn
  induction varsIn with
  | nil => intro acc; rfl
  | cons kv varsIn ih =>
    intro acc
    simp only [List.foldl_cons]
    by_cases hc : (skip_vars.contains kv.1 || non_time_vars.contains kv.1) = true
    · rw [if_pos hc]; exact ih acc
    · rw [if_neg hc, ih]
      apply hasVar_ncSetVar_ne
      intro h
      rw [h, hskip] at hc
      simp at hc

/-- A full write_nc_one_step never introduces a variable whose name is on
the skip_vars denylist. -/
lemma hasVar_write_nc_one_step_skip (f : NcFile) (varsIn : List (String × Option Frac))
    (coords : Coords) (idt : ℕ) (profile : ℤ) (name : String)
    (hskip : skip_vars.contains name = true) :
    hasVar (write_nc_one_step f varsIn coords idt profile) name = hasVar f name := by
  have hmem : name ∈ ["AltDialCmd", "AtDialCmd", "DebugBits", "Pwd", "User"] := by
    simpa [skip_vars] using hskip
  have ht : ("time" : String) ≠ name := by rintro rfl; simp at hmem
  have hlon : ("longitude" : String) ≠ name := by rintro rfl; simp at hmem
  have hlat : ("latitude" : String) ≠ name := by rintro rfl; simp at hmem
  simp only [write_nc_one_step]
  rw [hasVar_fold_skip idt name hskip]
  rcases h1 : alGet? coords "time" with _ | v1 <;>
    rcases h2 : alGet? coords "lon" with _ | v2 <;>
      rcases h3 : alGet? coords "lat" with _ | v3 <;>
        simp only [hasVar_ncSetVar_ne _ _ _ _ _ ht, hasVar_ncSetVar_ne _ _ _ _ _ hlon,
          hasVar_ncSetVar_ne _ _ _ _ _ hlat, hasVar_setCycles]

/-- C9 as amended: denylisted names are dropped from header lines of the
unit form and are never written as time-dependent variables by
write_nc_one_step, but footer extraction does not filter them: a footer
hex line for the credential Pwd puts Pwd into the returned FieldSet. -/
theorem c9_amended_denylist_scope :
    (∀ (fwrev : List Char → Option (String × String)) (line : List Char) (vars : FieldSet)
       (name val unit : List Char),
       searchHeaderUnit line = some (name, val, unit) →
       skip_vars.contains (String.mk name) = true →
       containsSub ("IsusInit".data) line = false →
       containsSub ("DuraInit".data) line = false →
       parse_msg_header_line fwrev line vars = vars) ∧
    (∀ (f : NcFile) (varsIn : List (String × Option Frac)) (coords : Coords) (idt : ℕ)
       (profile : ℤ) (name : String), skip_vars.contains name = true →
       hasVar (write_nc_one_step f varsIn coords idt profile) name = hasVar f name) ∧
    (fsMem (parse_msg_footer_line (fun _ => none) ("Pwd=0xc39a".data) ⟨[], []⟩).vars "Pwd" =
      true) := by
  refine ⟨?_, ?_, by decide⟩
  · intro fwrev line vars name val unit hsearch hskip hisus hdura
    have hne : ¬ (String.mk name = "ParkPressure") := by
      intro e
      rw [e] at hskip
      exact absurd hskip (by decide)
    simp only [parse_msg_header_line, hisus, hdura, hsearch, Bool.or_self,
      Bool.false_eq_true, if_false]
    rw [if_neg hne, if_pos hskip]
  · intro f varsIn coords idt profile name hskip
    exact hasVar_write_nc_one_step_skip f varsIn coords idt profile name hskip

/-- Witness for the amended C9: a unit-form header line for Pwd adds
nothing to an empty FieldSet, and one write step cannot create a variable
named Pwd. -/
theorem c9_amended_denylist_scope_witness :
    (parse_msg_header_line (fun _ => none) ("$ Pwd(123) [x]".data) [] = []) ∧
    (hasVar (write_nc_one_step create_nc_file_empty [("Pwd", some ⟨1, 1⟩)] [] 0 1) "Pwd" =
      hasVar create_nc_file_empty "Pwd") :=
  ⟨c9_amended_denylist_scope.1 (fun _ => none) ("$ Pwd(123) [x]".data) []
      ("Pwd".data) ("123".data) ("x".data) (by decide) (by decide) (by decide) (by decide),
   c9_amended_denylist_scope.2.1 create_nc_file_empty [("Pwd", some ⟨1, 1⟩)] [] 0 1 "Pwd"
      (by decide)⟩

/-- C9 counterexample: the footer parser performs no denylist check, so the
footer line Pwd=0xc39a puts the credential Pwd into the FieldSet returned
by footer extraction. -/
theorem c9_counterexample_footer_pwd :
    fsMem (parse_msg_footer_line (fun _ => none) ("Pwd=0xc39a".data) ⟨[], []⟩).vars "Pwd" =
      true ∧
    fsMem (parse_msg_footer_line (fun _ => none) ("User=argo7".data) ⟨[], []⟩).vars "User" =
      true := by
  constructor
  · decide
  · decide

/-- C8 counterexample: after the header line ParkPressure(1000)[dbar] and a
discrete block with a unique park sample of pressure 998.5, the FieldSet
holds neither a ParkPressure_target field nor a ParkPressure_actual field:
those names are never used by the source. -/
theorem c8_counterexample_no_target_actual_names :
    (copy_park_sample
        (parse_msg_header_line (fun _ => none) (("$ ParkPressure(1000) [dbar]").data) [])
        (some ⟨[("p", ["1.0", "998.5"]), ("t", ["20.0", "3.2"]), ("s", ["35.0", "34.1"])],
               [false, true]⟩)).map
      (fun vs => (fsMem vs "ParkPressure_target", fsMem vs "ParkPressure_actual")) =
      some (false, false) := by
  decide

/-- C8 as amended: the target pressure from the header and the actual
park-sample pressure are kept under the two distinct names ParkPressure0
(the header value, as a string with its unit) and ParkPressure (the decoded
sample value 998.5), neither overwriting the other. -/
theorem c8_amended_distinct_names :
    ((copy_park_sample
        (parse_msg_header_line (fun _ => none) (("$ ParkPressure(1000) [dbar]").data) [])
        (some ⟨[("p", ["1.0", "998.5"]), ("t", ["20.0", "3.2"]), ("s", ["35.0", "34.1"])],
               [false, true]⟩)).map
      (fun vs => (fsGet? vs "ParkPressure0", fsGet? vs "ParkPressure")) =
      some (some ⟨FVal.str "1000", "dbar"⟩, some ⟨FVal.num ⟨9985, 10⟩, "dbar"⟩)) ∧
    Frac.toRat ⟨9985, 10⟩ = 998.5 := by
  constructor
  · decide
  · norm_num [Frac.toRat]

/-- C1: the time-series insert is broken in the code.  add_time_step_nc
shifts only variables on a dimension named N_PROF while every variable of
the file lives on the dimension named time, so no record is ever shifted
and write_nc_file overwrites the record at the insertion index: merging
cycle 3 and then cycle 2 into an empty archive leaves CYCLE_NUMBER = [2],
losing cycle 3, and inserting cycle 2 between cycles 1 and 3 leaves
CYCLE_NUMBER = [1, 2] with the data of cycle 3 overwritten (in the source
the call even raises NameError, since the bisect module is never
imported). -/
theorem c1_insert_overwrites_existing_cycle :
    ((write_nc_file create_nc_file_empty [] [] 3).bind
        (fun f => write_nc_file f [] [] 2) = some ⟨[2], ["time"], []⟩) ∧
    ((((write_nc_file create_nc_file_empty [("X", some ⟨5, 1⟩)] [] 1).bind
        (fun f => write_nc_file f [("X", some ⟨7, 1⟩)] [] 3)).bind
        (fun f => write_nc_file f [("X", some ⟨6, 1⟩)] [] 2)) =
      some ⟨[1, 2], ["time"], [⟨"X", ["time"], [some ⟨5, 1⟩, some ⟨6, 1⟩]⟩]⟩) := by
  constructor
  · decide
  · decide

end GOBOP
